import Mathlib

/-!
# Verification of the OpenAPI schema-validator rule engine

A shallow embedding of the rule-dispatch and diagnostic-aggregation engine
(`runLinter` together with its rule registry `functionsMap`), plus theorems
settling the specified properties of the engine.

Modelling conventions:
* JavaScript runtime values are modelled by `JSValue` (numbers as `Int`;
  the engine never does numeric arithmetic on document values, so floats,
  `NaN` and `-0` never influence any branch the engine takes).
* A CodeMirror `Diagnostic` record is modelled by the structure `Diagnostic`
  (`from`/`to` offsets, severity, message, optional source tag).
* String length is the Lean character count, standing in for the JS string
  length of the raw text.
* The YAML parser (`js-yaml`, an external library) is a parameter
  `parse : String → Except String JSValue`: it either returns the parsed
  value or throws an exception carrying a `message` string (js-yaml always
  throws `YAMLException`, an `Error` with a string `message`).
* The fourteen registered check functions are external collaborators whose
  bodies live outside the engine; the engine only ever (a) tests
  `typeof functionsMap[name] === 'function'` — which accepts the fourteen
  own keys and also the function-valued properties the plain object
  literal inherits from `Object.prototype` — and (b) awaits the chosen
  function and branches on array-vs-non-array return or thrown error.  Their behaviour
  is therefore a parameter `env : Env`, producing a `CheckOutcome`: a
  returned array of diagnostics, a returned non-array value, or a
  thrown/rejected error value.
-/

/-- A JavaScript runtime value, as produced by `yaml.load` and passed around
by the engine (documents, rule descriptors, thrown errors). -/
inductive JSValue where
  | undefined : JSValue
  | null : JSValue
  | bool : Bool → JSValue
  | num : Int → JSValue
  | str : String → JSValue
  | arr : List JSValue → JSValue
  | obj : List (String × JSValue) → JSValue
deriving Repr

namespace JSValue

/-- Optional-chaining property access `v?.k`: `undefined` on `null` or
`undefined` receivers; ordinary objects look the key up (`undefined` when
absent); primitives and arrays have none of the properties the engine
reads (`info`, `title`, `call`, `function`, `message`), so they yield
`undefined`. -/
def optGet (v : JSValue) (k : String) : JSValue :=
  match v with
  | .obj fields => ((fields.lookup k).getD .undefined)
  | _ => .undefined

/-- JavaScript truthiness of a value (no `NaN` in the `Int` number model). -/
def truthy : JSValue → Bool
  | .undefined => false
  | .null => false
  | .bool b => b
  | .num n => n != 0
  | .str s => s != ""
  | .arr _ => true
  | .obj _ => true

/-- `Array.isArray`. -/
def isArr : JSValue → Bool
  | .arr _ => true
  | _ => false

/-- Is the value a plain object (a YAML mapping)? -/
def isObj : JSValue → Bool
  | .obj _ => true
  | _ => false

/-- The element list of an array value (engine code only reads it after an
`Array.isArray` guard). -/
def asArr : JSValue → List JSValue
  | .arr xs => xs
  | _ => []

end JSValue

mutual
/-- JavaScript `String(v)` / template-literal coercion, as used for property
keys (`functionsMap[rule.call.function]`) and error messages. -/
def jsToString : JSValue → String
  | .undefined => "undefined"
  | .null => "null"
  | .bool true => "true"
  | .bool false => "false"
  | .num n => toString n
  | .str s => s
  | .arr xs => jsArrToString xs
  | .obj _ => "[object Object]"

/-- `Array.prototype.toString` = `join(",")`. -/
def jsArrToString : List JSValue → String
  | [] => ""
  | [x] => jsElemToString x
  | x :: y :: xs => jsElemToString x ++ "," ++ jsArrToString (y :: xs)

/-- In `Array.prototype.join`, `null` and `undefined` elements render as the
empty string. -/
def jsElemToString : JSValue → String
  | .undefined => ""
  | .null => ""
  | .bool true => "true"
  | .bool false => "false"
  | .num n => toString n
  | .str s => s
  | .arr xs => jsArrToString xs
  | .obj _ => "[object Object]"
end

/-- A CodeMirror lint diagnostic: text span, severity, message and an
optional source tag. -/
structure Diagnostic where
  «from» : Int
  «to» : Int
  severity : String
  message : String
  source : Option String
deriving Repr, DecidableEq

/-- The settled outcome of `await ruleFunc(spec, content, rule)`: a returned
array (whose elements the engine never inspects, hence typed at the declared
`Diagnostic[]` interface), a returned non-array value, or a thrown /
rejected error value. -/
inductive CheckOutcome where
  | retArr : List Diagnostic → CheckOutcome
  | retNonArr : (v : JSValue) → v.isArr = false → CheckOutcome
  | thrown : JSValue → CheckOutcome

/-- Behaviour of the registered check functions: given the function name
used for the `functionsMap` lookup, the parsed spec, the raw content and
the rule descriptor, the settled outcome of the call. -/
abbrev Env : Type := String → JSValue → String → JSValue → CheckOutcome

/-- Behaviour of `yaml.load` on a given text: the parsed value, or the
`message` of the thrown `YAMLException`. -/
abbrev ParseFn : Type := String → Except String JSValue

/-- The keys of the `functionsMap` registry object: the fourteen imported
check functions, in source order. -/
def functionsMapNames : List String :=
  [ "checkHttpsServers"
  , "checkParamElementPresence"
  , "checkElementSensitiveData"
  , "checkAllowedMethods"
  , "checkOASSpec"
  , "checkOASVersion"
  , "checkCRUD"
  , "checkSuccessResponse"
  , "checkGetIdempotency"
  , "checkGetReturnObject"
  , "checkParamElementAbsence"
  , "checkRequestEncapsulation"
  , "checkResponseEncapsulation"
  , "checkCompatibility" ]

/-- The function-valued properties a plain object literal inherits from
`Object.prototype`; a bracket lookup on `functionsMap` reaches these too,
and `typeof` reports `'function'` for them.  (`__proto__` is inherited as
well but is object-valued, so it fails the `typeof` test.) -/
def objectPrototypeFnNames : List String :=
  [ "constructor"
  , "hasOwnProperty"
  , "isPrototypeOf"
  , "propertyIsEnumerable"
  , "toLocaleString"
  , "toString"
  , "valueOf"
  , "__defineGetter__"
  , "__defineSetter__"
  , "__lookupGetter__"
  , "__lookupSetter__" ]

/-- `typeof functionsMap[key] === 'function'`: the bracket lookup walks the
prototype chain, so this holds for the fourteen own keys and also for the
function-valued methods inherited from `Object.prototype`. -/
def functionsMapHas (key : String) : Bool :=
  functionsMapNames.contains key || objectPrototypeFnNames.contains key

/-- The function name a rule descriptor selects: `rule.call.function`
coerced to a property key (`functionsMap[rule.call.function]` coerces the
key with `String(·)`). -/
def ruleFuncName (rule : JSValue) : String :=
  jsToString ((rule.optGet "call").optGet "function")

/-- The `selectedRules.filter(...)` predicate:
`!!rule?.call?.function && typeof functionsMap[rule.call.function] === 'function'`. -/
def isRunnable (rule : JSValue) : Bool :=
  ((rule.optGet "call").optGet "function").truthy && functionsMapHas (ruleFuncName rule)

/-- The diagnostic synthesized in the per-rule `catch` block:
full-text span, severity `error`, message
`Rule "<name>" execution failed: <err?.message || String(err)>`,
source set to the function name. -/
def ruleFailureDiag (content : String) (funcName : String) (e : JSValue) : Diagnostic :=
  { «from» := 0
  , «to» := (content.length : Int)
  , severity := "error"
  , message := "Rule \"" ++ funcName ++ "\" execution failed: " ++
      (if (e.optGet "message").truthy then jsToString (e.optGet "message") else jsToString e)
  , source := some funcName }

/-- One runnable rule's contribution to the flattened result: the body of
the `runnable.map(async (rule) => ...)` callback after settling. -/
def ruleContribution (env : Env) (spec : JSValue) (content : String) (rule : JSValue) :
    List Diagnostic :=
  let funcName := ruleFuncName rule
  match env funcName spec content rule with
  | .retArr out => out
  | .retNonArr _ _ => []
  | .thrown err => [ruleFailureDiag content funcName err]

/-- The diagnostic pushed by the outer `catch` block on parse failure:
`Specification parsing error: ` + the parser error's message, full-text
span, severity `error`, source `"parser"`. -/
def parserFailureDiag (content : String) (msg : String) : Diagnostic :=
  { «from» := 0
  , «to» := (content.length : Int)
  , severity := "error"
  , message := "Specification parsing error: " ++ msg
  , source := some "parser" }

/-- The engine's return value `{ diagnostics, specTitle }`.  `specTitle` is
the raw runtime value of `(spec as any)?.info?.title` (`undefined` when the
field is absent or parsing failed); the TypeScript annotation
`specTitle?: string` is not enforced at runtime. -/
structure RunResult where
  diagnostics : List Diagnostic
  specTitle : JSValue
deriving Repr

/-- `runLinter(content, selectedRules)`, parametrized by the behaviour of
`yaml.load` and of the registered check functions.

Control flow of the source: parse (throw caught by the outer `catch`,
producing the single parser diagnostic and leaving `specTitle` unset);
read `spec?.info?.title`; return early on a non-array or empty selection;
filter the selection to runnable rules; run each runnable rule with
per-rule try/catch and array coercion; flatten the per-rule results in
order. -/
def runLinter (parse : ParseFn) (env : Env) (content : String) (selectedRules : JSValue) :
    RunResult :=
  match parse content with
  | .error msg =>
      { diagnostics := [parserFailureDiag content msg], specTitle := .undefined }
  | .ok spec =>
      let specTitle := (spec.optGet "info").optGet "title"
      if !selectedRules.isArr || selectedRules.asArr.length == 0 then
        { diagnostics := [], specTitle := specTitle }
      else
        let runnable := selectedRules.asArr.filter isRunnable
        let results := runnable.map (ruleContribution env spec content)
        { diagnostics := results.flatten, specTitle := specTitle }

/-! ## Concrete values used by witnesses and counterexamples -/

/-- A rule descriptor selecting the registered function `checkCRUD`. -/
def ruleCheckCRUD : JSValue :=
  .obj [("call", .obj [("function", .str "checkCRUD")])]

/-- A rule descriptor selecting the registered function `checkOASSpec`. -/
def ruleCheckOASSpec : JSValue :=
  .obj [("call", .obj [("function", .str "checkOASSpec")])]

/-- A rule descriptor selecting a function name absent from the registry. -/
def ruleUnknown : JSValue :=
  .obj [("call", .obj [("function", .str "unknownRule")])]

/-- A rule descriptor naming `hasOwnProperty`: not a registered rule, but
the `typeof functionsMap["hasOwnProperty"] === 'function'` lookup finds the
inherited `Object.prototype.hasOwnProperty` and accepts it. -/
def ruleHasOwnProperty : JSValue :=
  .obj [("call", .obj [("function", .str "hasOwnProperty")])]

/-- The TypeError `Object.prototype.hasOwnProperty` throws when invoked as
a bare function (`this = undefined`, so its internal `ToObject(this)`
fails). -/
def hasOwnPropertyTypeError : JSValue :=
  .obj [("message", .str "Cannot convert undefined or null to object")]

/-- Check behaviour reproducing the run in which the looked-up function is
the inherited built-in `hasOwnProperty`: the bare call throws the
TypeError above. -/
def inheritedBuiltinEnv : Env := fun _ _ _ _ => .thrown hasOwnPropertyTypeError

/-- An error value with a `message` field, as thrown by a failing check. -/
def boomErr : JSValue := .obj [("message", .str "boom")]

/-- Check behaviour where every call throws `boomErr`. -/
def throwingEnv : Env := fun _ _ _ _ => .thrown boomErr

/-- Check behaviour where every call returns the non-array value `7`. -/
def nonArrEnv : Env := fun _ _ _ _ => .retNonArr (.num 7) rfl

/-- A structurally well-formed diagnostic with out-of-range offsets
(`from = 3 > to = 1`, and `to = 1 >` the length `0` of the empty text). -/
def badOffsetDiag : Diagnostic :=
  { «from» := 3, «to» := 1, severity := "error", message := "bad", source := some "checkCRUD" }

/-- Check behaviour where every call returns `[badOffsetDiag]`. -/
def badOffsetEnv : Env := fun _ _ _ _ => .retArr [badOffsetDiag]

/-- A parsed document whose `info.title` is the number `42`
(as `yaml.load "info:\n  title: 42"` produces). -/
def titleNumDoc : JSValue := .obj [("info", .obj [("title", .num 42)])]

/-- Is a run result's `specTitle` absent (`undefined`) or a string? -/
def isStringOrAbsent : JSValue → Bool
  | .str _ => true
  | .undefined => true
  | _ => false

/-! ## The central decomposition lemma -/

/-- When parsing succeeds, the returned diagnostics are exactly the
concatenation, in selection order, of the contributions of the runnable
rules (this also covers the empty-selection early return, whose result
coincides with flattening an empty list of contributions). -/
theorem runLinter_ok_diagnostics (parse : ParseFn) (env : Env) (content : String)
    (spec : JSValue) (rules : List JSValue) (hp : parse content = .ok spec) :
    (runLinter parse env content (.arr rules)).diagnostics =
      ((rules.filter isRunnable).map (ruleContribution env spec content)).flatten := by
  unfold runLinter
  rw [hp]
  cases rules with
  | nil => rfl
  | cons r rs => rfl

/-- Two run results with the same diagnostics and the same title are equal. -/
theorem runResult_ext {a b : RunResult} (hd : a.diagnostics = b.diagnostics)
    (ht : a.specTitle = b.specTitle) : a = b := by
  cases a; cases b; cases hd; cases ht; rfl

/-- When parsing succeeds, the returned `specTitle` is the value of the
optional chain `spec?.info?.title`, whatever `selectedRules` is. -/
theorem runLinter_ok_specTitle (parse : ParseFn) (env : Env) (content : String)
    (spec : JSValue) (selectedRules : JSValue) (hp : parse content = .ok spec) :
    (runLinter parse env content selectedRules).specTitle =
      (spec.optGet "info").optGet "title" := by
  unfold runLinter
  rw [hp]
  dsimp only
  split <;> rfl

/-! ## C1: totality -/

/-- C1: for every string `rawText`, every value of `selectedRules` (arrays
or not, however malformed), and every behaviour of the registered check
capabilities (returning an array, returning a non-array, throwing or
rejecting), `runLinter` completes and returns a Run Result
`{diagnostics, specTitle}`; it has no failure channel, so it never throws
or rejects to its caller. -/
theorem runLinter_total (parse : ParseFn) (env : Env) (content : String)
    (selectedRules : JSValue) :
    ∃ ds t, runLinter parse env content selectedRules =
      { diagnostics := ds, specTitle := t } :=
  ⟨_, _, rfl⟩

/-! ## C2: parse-failure short-circuit -/

/-- C2: whenever the parse of `content` fails with message `msg`, the run
returns exactly one diagnostic — `from = 0`, `to = length content`,
severity `error`, source `"parser"`, message embedding the parser's
failure text — and an absent (`undefined`) title.  The right-hand side
does not mention `env`, and `env` is universally quantified: no check
capability's behaviour can influence the run, i.e. no rule executes. -/
theorem runLinter_parse_failure (parse : ParseFn) (env : Env) (content : String)
    (selectedRules : JSValue) (msg : String) (h : parse content = .error msg) :
    runLinter parse env content selectedRules =
      { diagnostics :=
          [ { «from» := 0
            , «to» := (content.length : Int)
            , severity := "error"
            , message := "Specification parsing error: " ++ msg
            , source := some "parser" } ]
      , specTitle := .undefined } := by
  unfold runLinter
  rw [h]
  rfl

/-- Witness for C2 at a concrete failing parse. -/
theorem runLinter_parse_failure_witness :
    runLinter (fun _ => .error "unexpected end of the stream") throwingEnv "ab" .undefined =
      { diagnostics :=
          [ { «from» := 0
            , «to» := ((("ab" : String)).length : Int)
            , severity := "error"
            , message := "Specification parsing error: " ++ "unexpected end of the stream"
            , source := some "parser" } ]
      , specTitle := .undefined } :=
  runLinter_parse_failure (fun _ => .error "unexpected end of the stream") throwingEnv
    "ab" .undefined "unexpected end of the stream" rfl

/-! ## C5: resolution filtering — corrected -/

/-- Counterexample to C5 as stated: `"hasOwnProperty"` is not a registered
rule, yet the descriptor naming it survives the source's filter — the
bracket lookup reaches the inherited `Object.prototype.hasOwnProperty`,
which passes the `typeof` test — and its bare strict-mode call throws a
TypeError, so the unregistered descriptor contributes a synthetic error
diagnostic sourced `"hasOwnProperty"` instead of contributing nothing. -/
theorem runLinter_resolution_filtering_counterexample :
    functionsMapNames.contains "hasOwnProperty" = false ∧
    (runLinter (fun _ => .ok .null) inheritedBuiltinEnv "doc"
        (.arr [ruleHasOwnProperty])).diagnostics =
      [ruleFailureDiag "doc" "hasOwnProperty" hasOwnPropertyTypeError] :=
  ⟨rfl, rfl⟩

/-- C5 amended: a rule descriptor that is not runnable — its declared
function identifier is missing or falsy, or its coerced identifier is
neither one of the fourteen registered names nor a function-valued
property inherited from `Object.prototype` (the source's
`typeof functionsMap[k] === 'function'` test accepts both) — contributes
nothing at all: the run with the descriptor present equals the run with it
removed, for every parser behaviour, every check behaviour and every
surrounding selection — in particular every other descriptor still
executes and contributes exactly as before, and no error arises. -/
theorem runLinter_resolution_filtering (parse : ParseFn) (env : Env) (content : String)
    (bad : JSValue) (pre post : List JSValue) (hbad : isRunnable bad = false) :
    runLinter parse env content (.arr (pre ++ bad :: post)) =
      runLinter parse env content (.arr (pre ++ post)) := by
  cases hpc : parse content with
  | error msg =>
    unfold runLinter
    rw [hpc]
  | ok spec =>
    have hfilter : (pre ++ bad :: post).filter isRunnable = (pre ++ post).filter isRunnable := by
      simp [List.filter_append, List.filter_cons, hbad]
    refine runResult_ext ?_ ?_
    · rw [runLinter_ok_diagnostics parse env content spec _ hpc,
        runLinter_ok_diagnostics parse env content spec _ hpc, hfilter]
    · rw [runLinter_ok_specTitle parse env content spec _ hpc,
        runLinter_ok_specTitle parse env content spec _ hpc]

/-- Witness for C5: dropping an unregistered rule from the selection
leaves the run unchanged. -/
theorem runLinter_resolution_filtering_witness :
    runLinter (fun _ => .ok .null) throwingEnv "x" (.arr ([ruleCheckCRUD] ++ ruleUnknown :: [])) =
      runLinter (fun _ => .ok .null) throwingEnv "x" (.arr ([ruleCheckCRUD] ++ [])) :=
  runLinter_resolution_filtering (fun _ => .ok .null) throwingEnv "x" ruleUnknown
    [ruleCheckCRUD] [] rfl

/-! ## C7: specTitle — corrected -/

/-- Counterexample to C7 as stated: with the parsed document
`{info: {title: 42}}` (which `yaml.load` produces for
`"info:\n  title: 42"`), the returned `specTitle` is the number `42` —
neither absent nor a string.  The engine performs no string check on the
title. -/
theorem runLinter_specTitle_counterexample :
    (runLinter (fun _ => .ok titleNumDoc) throwingEnv "info:\n  title: 42" (.arr [])).specTitle
        = .num 42 ∧
    isStringOrAbsent
      (runLinter (fun _ => .ok titleNumDoc) throwingEnv "info:\n  title: 42"
        (.arr [])).specTitle = false :=
  ⟨rfl, rfl⟩

/-- C7 amended: `specTitle` is exactly the raw value reached by the
optional chain `spec?.info?.title` on the parsed document (so `undefined`
when parsing failed, when the path is missing, or when an intermediate
value is not an object), with no check that the value is a string:
non-string title values pass through unchanged. -/
theorem runLinter_specTitle_raw (parse : ParseFn) (env : Env) (content : String)
    (selectedRules : JSValue) :
    (runLinter parse env content selectedRules).specTitle =
      match parse content with
      | .error _ => JSValue.undefined
      | .ok spec => (spec.optGet "info").optGet "title" := by
  cases hpc : parse content with
  | error msg =>
    unfold runLinter
    rw [hpc]
  | ok spec =>
    exact runLinter_ok_specTitle parse env content spec selectedRules hpc

/-- Generalization of `runLinter_ok_diagnostics` to an arbitrary
`selectedRules` value: a non-array selection behaves like the empty
selection. -/
theorem runLinter_ok_diagnostics_any (parse : ParseFn) (env : Env) (content : String)
    (spec : JSValue) (selectedRules : JSValue) (hp : parse content = .ok spec) :
    (runLinter parse env content selectedRules).diagnostics =
      ((selectedRules.asArr.filter isRunnable).map (ruleContribution env spec content)).flatten := by
  cases selectedRules with
  | arr rules => exact runLinter_ok_diagnostics parse env content spec rules hp
  | undefined => unfold runLinter; rw [hp]; rfl
  | null => unfold runLinter; rw [hp]; rfl
  | bool b => unfold runLinter; rw [hp]; rfl
  | num n => unfold runLinter; rw [hp]; rfl
  | str s => unfold runLinter; rw [hp]; rfl
  | obj fields => unfold runLinter; rw [hp]; rfl

/-! ## C4: order preservation -/

/-- C4: when parsing succeeds, the diagnostics are the concatenation of the
per-rule contributions in selection order: for runnable rules `a` before
`b`, everything `a` contributes precedes everything `b` contributes, with
the contributions of the surrounding runnable rules in their own positions
and each rule's own sublist kept intact. -/
theorem runLinter_order_preservation (parse : ParseFn) (env : Env) (content : String)
    (spec a b : JSValue) (pre mid post : List JSValue)
    (hp : parse content = .ok spec) (ha : isRunnable a = true) (hb : isRunnable b = true) :
    (runLinter parse env content (.arr (pre ++ a :: (mid ++ b :: post)))).diagnostics =
      ((pre.filter isRunnable).map (ruleContribution env spec content)).flatten
        ++ ruleContribution env spec content a
        ++ ((mid.filter isRunnable).map (ruleContribution env spec content)).flatten
        ++ ruleContribution env spec content b
        ++ ((post.filter isRunnable).map (ruleContribution env spec content)).flatten := by
  rw [runLinter_ok_diagnostics parse env content spec _ hp]
  simp [List.filter_append, List.filter_cons, ha, hb, List.append_assoc]

/-- Witness for C4 with two concrete runnable rules. -/
theorem runLinter_order_preservation_witness :
    (runLinter (fun _ => .ok .null) throwingEnv "x"
        (.arr ([] ++ ruleCheckCRUD :: ([] ++ ruleCheckOASSpec :: [])))).diagnostics =
      ((List.filter isRunnable []).map (ruleContribution throwingEnv .null "x")).flatten
        ++ ruleContribution throwingEnv .null "x" ruleCheckCRUD
        ++ ((List.filter isRunnable []).map (ruleContribution throwingEnv .null "x")).flatten
        ++ ruleContribution throwingEnv .null "x" ruleCheckOASSpec
        ++ ((List.filter isRunnable []).map (ruleContribution throwingEnv .null "x")).flatten :=
  runLinter_order_preservation (fun _ => .ok .null) throwingEnv "x" .null
    ruleCheckCRUD ruleCheckOASSpec [] [] [] rfl rfl rfl

/-! ## C3: failure isolation -/

/-- C3: when parsing succeeds and the check behind a runnable rule `r`
throws (or rejects) with error value `e`, the run still returns, the other
runnable rules' contributions are untouched and in place, and `r`
contributes exactly the one synthetic diagnostic `ruleFailureDiag` —
full-text span, severity `error`, message naming the function and
embedding the failure's message, source set to the function name. -/
theorem runLinter_failure_isolation (parse : ParseFn) (env : Env) (content : String)
    (spec r e : JSValue) (pre post : List JSValue)
    (hp : parse content = .ok spec) (hr : isRunnable r = true)
    (he : env (ruleFuncName r) spec content r = .thrown e) :
    (runLinter parse env content (.arr (pre ++ r :: post))).diagnostics =
      ((pre.filter isRunnable).map (ruleContribution env spec content)).flatten
        ++ [ruleFailureDiag content (ruleFuncName r) e]
        ++ ((post.filter isRunnable).map (ruleContribution env spec content)).flatten := by
  have hc : ruleContribution env spec content r = [ruleFailureDiag content (ruleFuncName r) e] := by
    simp only [ruleContribution, he]
  rw [runLinter_ok_diagnostics parse env content spec _ hp]
  simp [List.filter_append, List.filter_cons, hr, hc, List.append_assoc]

/-- Witness for C3: a single runnable rule whose check throws an error
object carrying `message: "boom"`. -/
theorem runLinter_failure_isolation_witness :
    (runLinter (fun _ => .ok .null) throwingEnv "x" (.arr ([] ++ ruleCheckCRUD :: []))).diagnostics =
      ((List.filter isRunnable []).map (ruleContribution throwingEnv .null "x")).flatten
        ++ [ruleFailureDiag "x" (ruleFuncName ruleCheckCRUD) boomErr]
        ++ ((List.filter isRunnable []).map (ruleContribution throwingEnv .null "x")).flatten :=
  runLinter_failure_isolation (fun _ => .ok .null) throwingEnv "x" .null
    ruleCheckCRUD boomErr [] [] rfl rfl rfl

/-! ## C8: non-array return coercion -/

/-- C8: when parsing succeeds and the check behind a runnable rule `r`
returns successfully but with a non-array value `v`, that rule contributes
the empty sequence — the run's diagnostics are exactly those of the
surrounding runnable rules, with no diagnostic and no error for `r`. -/
theorem runLinter_nonarray_coercion (parse : ParseFn) (env : Env) (content : String)
    (spec r v : JSValue) (hv : v.isArr = false) (pre post : List JSValue)
    (hp : parse content = .ok spec) (hr : isRunnable r = true)
    (he : env (ruleFuncName r) spec content r = .retNonArr v hv) :
    (runLinter parse env content (.arr (pre ++ r :: post))).diagnostics =
      ((pre.filter isRunnable).map (ruleContribution env spec content)).flatten
        ++ ((post.filter isRunnable).map (ruleContribution env spec content)).flatten := by
  have hc : ruleContribution env spec content r = [] := by
    simp only [ruleContribution, he]
  rw [runLinter_ok_diagnostics parse env content spec _ hp]
  simp [List.filter_append, List.filter_cons, hr, hc, List.append_assoc]

/-- Witness for C8: a runnable rule whose check returns the number `7`. -/
theorem runLinter_nonarray_coercion_witness :
    (runLinter (fun _ => .ok .null) nonArrEnv "x" (.arr ([] ++ ruleCheckCRUD :: []))).diagnostics =
      ((List.filter isRunnable []).map (ruleContribution nonArrEnv .null "x")).flatten
        ++ ((List.filter isRunnable []).map (ruleContribution nonArrEnv .null "x")).flatten :=
  runLinter_nonarray_coercion (fun _ => .ok .null) nonArrEnv "x" .null
    ruleCheckCRUD (.num 7) rfl [] [] rfl rfl rfl

/-! ## C9: non-mapping documents parse successfully -/

/-- C9: when the parser accepts `content` but yields a non-mapping value
`v` (e.g. `null` for the empty string, or a bare scalar), the run is an
ordinary successful run: no parser diagnostic is synthesized (the
diagnostics are exactly the runnable rules' contributions), the title is
absent (`undefined`), and every runnable rule's check is still invoked
with `v` as the parsed document (the contributions apply `env` to `v`). -/
theorem runLinter_nonmapping_success (parse : ParseFn) (env : Env) (content : String)
    (v : JSValue) (rules : List JSValue)
    (hp : parse content = .ok v) (hv : v.isObj = false) :
    runLinter parse env content (.arr rules) =
      { diagnostics := ((rules.filter isRunnable).map (ruleContribution env v content)).flatten
      , specTitle := .undefined } := by
  refine runResult_ext ?_ ?_
  · exact runLinter_ok_diagnostics parse env content v rules hp
  · rw [runLinter_ok_specTitle parse env content v _ hp]
    cases v with
    | obj fields => simp [JSValue.isObj] at hv
    | undefined => rfl
    | null => rfl
    | bool b => rfl
    | num n => rfl
    | str s => rfl
    | arr xs => rfl

/-- Witness for C9: the empty document parses to `null`, and a runnable
rule still runs against it. -/
theorem runLinter_nonmapping_success_witness :
    runLinter (fun _ => .ok .null) throwingEnv "" (.arr [ruleCheckCRUD]) =
      { diagnostics :=
          (([ruleCheckCRUD].filter isRunnable).map (ruleContribution throwingEnv .null "")).flatten
      , specTitle := .undefined } :=
  runLinter_nonmapping_success (fun _ => .ok .null) throwingEnv "" .null
    [ruleCheckCRUD] rfl rfl

/-! ## C6: offset validity — corrected -/

/-- Counterexample to C6 as stated: the engine passes rule-produced
diagnostics through unvalidated, so a check returning the structurally
well-formed but out-of-range `badOffsetDiag` (`from = 3 > to = 1`, on the
empty text of length `0`) puts it verbatim into the Run Result. -/
theorem runLinter_offset_validity_counterexample :
    badOffsetDiag ∈
        (runLinter (fun _ => .ok .null) badOffsetEnv "" (.arr [ruleCheckCRUD])).diagnostics ∧
    ¬ (0 ≤ badOffsetDiag.«from» ∧ badOffsetDiag.«from» ≤ badOffsetDiag.«to» ∧
        badOffsetDiag.«to» ≤ ((("" : String)).length : Int)) := by
  constructor
  · show badOffsetDiag ∈ [badOffsetDiag]
    exact List.mem_singleton_self _
  · decide

/-- C6 amended: the engine's own synthetic diagnostics (the parser
diagnostic and the per-rule failure diagnostics) always satisfy
`0 ≤ from ≤ to ≤ length content`, and therefore, whenever every array a
check capability returns consists of diagnostics within those bounds,
every diagnostic of the Run Result is within bounds.  (The engine itself
performs no validation of rule-produced offsets.) -/
theorem runLinter_offset_validity (parse : ParseFn) (env : Env) (content : String)
    (selectedRules : JSValue) (d : Diagnostic)
    (henv : ∀ fn spec rule out, env fn spec content rule = .retArr out →
      ∀ d' ∈ out, 0 ≤ d'.«from» ∧ d'.«from» ≤ d'.«to» ∧ d'.«to» ≤ (content.length : Int))
    (hd : d ∈ (runLinter parse env content selectedRules).diagnostics) :
    0 ≤ d.«from» ∧ d.«from» ≤ d.«to» ∧ d.«to» ≤ (content.length : Int) := by
  cases hpc : parse content with
  | error msg =>
    have hone : d = parserFailureDiag content msg := by
      unfold runLinter at hd
      rw [hpc] at hd
      simpa using hd
    subst hone
    unfold parserFailureDiag
    exact ⟨le_refl 0, Int.natCast_nonneg _, le_refl _⟩
  | ok spec =>
    rw [runLinter_ok_diagnostics_any parse env content spec selectedRules hpc] at hd
    rw [List.mem_flatten] at hd
    obtain ⟨l, hl, hdl⟩ := hd
    rw [List.mem_map] at hl
    obtain ⟨rule, hrule, rfl⟩ := hl
    unfold ruleContribution at hdl
    cases heq : env (ruleFuncName rule) spec content rule with
    | retArr out =>
      simp only [heq] at hdl
      exact henv (ruleFuncName rule) spec rule out heq d hdl
    | retNonArr v hv =>
      simp only [heq] at hdl
      cases hdl
    | thrown e =>
      simp only [heq] at hdl
      have hone : d = ruleFailureDiag content (ruleFuncName rule) e := by
        simpa using hdl
      subst hone
      unfold ruleFailureDiag
      exact ⟨le_refl 0, Int.natCast_nonneg _, le_refl _⟩

/-- Witness for the amended C6: a run whose only diagnostic is a synthetic
rule-failure diagnostic, shown to be within bounds. -/
theorem runLinter_offset_validity_witness :
    0 ≤ (ruleFailureDiag "x" "checkCRUD" boomErr).«from» ∧
    (ruleFailureDiag "x" "checkCRUD" boomErr).«from» ≤
      (ruleFailureDiag "x" "checkCRUD" boomErr).«to» ∧
    (ruleFailureDiag "x" "checkCRUD" boomErr).«to» ≤ ((("x" : String)).length : Int) :=
  runLinter_offset_validity (fun _ => .ok .null) throwingEnv "x" (.arr [ruleCheckCRUD])
    (ruleFailureDiag "x" "checkCRUD" boomErr)
    (fun fn spec rule out h => nomatch h)
    (by decide)
